import Mathlib

/-!
Verification of `tracing-collector` (src/lib.rs): a test-support log
collector.  A `TracingCollector` shares a `Mutex<Vec<u8>>` capture buffer
with a `CollectingWriter`; the writer appends bytes, `Display::fmt`
destructively drains the buffer, strips ANSI escape sequences, validates
UTF-8 and prepends an optional prefix character, `clear` discards the
buffer, and `Drop` empties the buffer and shrinks its capacity to zero.

The embedding models the shared mutable state (`Mutex<Vec<u8>>` contents,
`Vec` capacity, whether the mutex is poisoned, and the configured prefix
character) as an explicit record threaded through each operation.  Each
operation returns an `Outcome` distinguishing a normal result, a
recoverable `io::Error` return, and a process panic (`.expect`), paired
with the state of the shared buffer afterwards.
-/

/-- Outcome of one operation of the collector: a normal return value, a
recoverable `io::Error` returned to the caller, or a process panic raised
by `.expect` / `.unwrap` (fatal, no value returned). -/
inductive Outcome (α : Type) where
  | ok : α → Outcome α
  | ioError : Outcome α
  | panicked : Outcome α
deriving DecidableEq, Repr

/-- The shared mutable state of a `TracingCollector` and its
`CollectingWriter`s: the logical contents of the `Mutex<Vec<u8>>` capture
buffer (`buf`, bytes as `Nat` values `< 256`), the `Vec`'s storage
capacity (`cap`), whether the mutex is poisoned by a panic of a previous
holder (`poisoned`), and the collector's configured prefix character
(`pfx`, the `prefix: Option<char>` field). -/
structure CollectorState where
  buf : List Nat
  cap : Nat
  poisoned : Bool
  pfx : Option Char
deriving DecidableEq, Repr

/-- `TracingCollector::new`: a fresh collector holds an empty `Vec` (no
allocation, capacity 0) behind a fresh, unpoisoned mutex, and the default
prefix character `'㏒'`. -/
def newCollector : CollectorState :=
  { buf := [], cap := 0, poisoned := false, pfx := some '㏒' }

/-- `TracingCollector::set_prefix`: `self.prefix = Some(prefix)`.  Only
the prefix configuration changes; the capture buffer is untouched. -/
def set_prefix (s : CollectorState) (c : Char) : CollectorState :=
  { s with pfx := some c }

/-- `TracingCollector::remove_prefix`: `self.prefix = None`. -/
def remove_prefix (s : CollectorState) : CollectorState :=
  { s with pfx := none }

/-- `CollectingWriter::write`: `self.buf()?` maps a poisoned lock to
`io::Error::from(io::ErrorKind::Other)` returned to the caller (buffer
untouched); otherwise `Vec::<u8>::write` appends every byte of `b` in
order at the end and returns `Ok(b.len())`.  `cap` grows to hold the new
length (`Vec` keeps `cap ≥ len`; the model records the least growth). -/
def collectingWrite (s : CollectorState) (b : List Nat) :
    Outcome Nat × CollectorState :=
  if s.poisoned then (.ioError, s)
  else (.ok b.length,
    { s with buf := s.buf ++ b, cap := max s.cap (s.buf.length + b.length) })

/-- `CollectingWriter::flush`: `self.buf()?.flush()`; a poisoned lock is
returned as `io::Error`, otherwise `Vec::flush` is a no-op `Ok(())`. -/
def collectingFlush (s : CollectorState) : Outcome Unit × CollectorState :=
  if s.poisoned then (.ioError, s)
  else (.ok (), s)

/-- `TracingCollector::clear`:
`self.buf.lock().expect("failed to lock mutex").clear()`.  A poisoned
mutex panics; otherwise `Vec::clear` empties the buffer, keeping its
capacity. -/
def clearCollector (s : CollectorState) : Outcome Unit × CollectorState :=
  if s.poisoned then (.panicked, s)
  else (.ok (), { s with buf := [] })

/-- States of the control-sequence stripper: ordinary text, just after an
escape byte `0x1B`, or inside a CSI sequence `ESC [ … final`. -/
inductive StripState where
  | ground
  | escSeen
  | csi
deriving DecidableEq, Repr

/-- Modelled from the spec: one byte step of the external
control-sequence stripper (`strip_ansi_escapes::strip`, an external crate
whose source is not part of this repository; the spec says it "strips all
terminal control/escape sequences" and leaves the human-readable message
intact).  In ground state every byte except `ESC` (`0x1B`) is kept; `ESC`
enters an escape; `ESC [` opens a CSI sequence whose parameter and
intermediate bytes (`0x20`–`0x3F`) are consumed until a final byte
(`0x40`–`0x7E`) closes it; a two-byte `ESC c` sequence is consumed whole.
No stripped byte is emitted. -/
def stripStep : StripState → Nat → StripState × List Nat
  | .ground, b => if b = 27 then (.escSeen, []) else (.ground, [b])
  | .escSeen, b => if b = 91 then (.csi, []) else (.ground, [])
  | .csi, b => if 64 ≤ b ∧ b ≤ 126 then (.ground, []) else (.csi, [])

/-- Modelled from the spec: run the control-sequence stripper from a
given state over a byte list, concatenating the kept bytes. -/
def stripGo : StripState → List Nat → List Nat
  | _, [] => []
  | st, b :: rest =>
    let step := stripStep st b
    step.2 ++ stripGo step.1 rest

/-- Modelled from the spec: `strip_ansi_escapes::strip` on a whole
buffer, starting in ground state. -/
def stripAnsi (bs : List Nat) : List Nat :=
  stripGo .ground bs

/-- Is `b` a UTF-8 continuation byte (`0x80`–`0xBF`)? -/
def isCont (b : Nat) : Bool :=
  128 ≤ b && b < 192

/-- Strict UTF-8 decoding, the semantics of `String::from_utf8`: `some`
of the decoded characters when the bytes are valid UTF-8 (no overlong
encodings, no surrogates, no code points above `0x10FFFF`), `none`
otherwise.  No replacement characters are ever produced. -/
def utf8Decode : List Nat → Option (List Char)
  | [] => some []
  | b :: rest =>
    if b < 128 then
      (utf8Decode rest).map (fun cs => Char.ofNat b :: cs)
    else if b < 192 then
      none
    else if b < 224 then
      match rest with
      | b1 :: rest1 =>
        if isCont b1 then
          let cp := (b - 192) * 64 + (b1 - 128)
          if cp < 128 then none
          else (utf8Decode rest1).map (fun cs => Char.ofNat cp :: cs)
        else none
      | [] => none
    else if b < 240 then
      match rest with
      | b1 :: b2 :: rest2 =>
        if isCont b1 && isCont b2 then
          let cp := (b - 224) * 4096 + (b1 - 128) * 64 + (b2 - 128)
          if cp < 2048 then none
          else if 55296 ≤ cp ∧ cp < 57344 then none
          else (utf8Decode rest2).map (fun cs => Char.ofNat cp :: cs)
        else none
      | _ => none
    else if b < 248 then
      match rest with
      | b1 :: b2 :: b3 :: rest3 =>
        if isCont b1 && isCont b2 && isCont b3 then
          let cp := (b - 240) * 262144 + (b1 - 128) * 4096
            + (b2 - 128) * 64 + (b3 - 128)
          if cp < 65536 then none
          else if cp > 1114111 then none
          else (utf8Decode rest3).map (fun cs => Char.ofNat cp :: cs)
        else none
      | _ => none
    else none

/-- `impl fmt::Display for TracingCollector`, the render operation.  A
poisoned mutex panics (`.expect("failed to lock mutex")`).  Otherwise
`mem::swap` replaces the buffer in the mutex with a freshly constructed
`vec![]` (length 0, capacity 0) and takes the old contents out; the
swapped-out bytes are passed through `strip_ansi_escapes::strip`, decoded
by `String::from_utf8` — whose failure panics
(`.expect("log contains invalid utf8")`) — and the configured prefix
character, when present, is written once before the cleaned string. -/
def render (s : CollectorState) : Outcome String × CollectorState :=
  if s.poisoned then (.panicked, s)
  else
    let s1 : CollectorState := { s with buf := [], cap := 0 }
    match utf8Decode (stripAnsi s.buf) with
    | none => (.panicked, s1)
    | some cs =>
      match s.pfx with
      | some p => (.ok (String.mk (p :: cs)), s1)
      | none => (.ok (String.mk cs), s1)

/-- `impl Drop for TracingCollector`: teardown locks the mutex
(`.expect("msg")`, panic when poisoned), `Vec::clear`s the buffer and
`shrink_to(0)` releases its storage, so the leaked allocation is only an
empty `Vec` (capacity 0) and the mutex itself. -/
def dropCollector (s : CollectorState) : Outcome Unit × CollectorState :=
  if s.poisoned then (.panicked, s)
  else (.ok (), { s with buf := [], cap := 0 })

/-- Concatenation of a serialized sequence of write payloads. -/
def concatAll (ws : List (List Nat)) : List Nat :=
  ws.foldr (fun w acc => w ++ acc) []

/-- A serialized sequence of `CollectingWriter::write` calls, stopping at
the first failure; on success the returned list carries each call's byte
count. -/
def writeAll : CollectorState → List (List Nat) → Outcome (List Nat) × CollectorState
  | s, [] => (.ok [], s)
  | s, w :: rest =>
    match collectingWrite s w with
    | (.ok n, s1) =>
      match writeAll s1 rest with
      | (.ok ns, s2) => (.ok (n :: ns), s2)
      | (.ioError, s2) => (.ioError, s2)
      | (.panicked, s2) => (.panicked, s2)
    | (.ioError, s1) => (.ioError, s1)
    | (.panicked, s1) => (.panicked, s1)

/-- The rendered form of an empty drain: the prefix character alone when
one is configured, the empty string otherwise. -/
def pfxString : Option Char → String
  | some c => String.mk [c]
  | none => ""

/-- The rendered string for a drained buffer that decoded to the
characters `cs`: the configured prefix character, when present, written
exactly once before the cleaned text. -/
def pfxOut (p : Option Char) (cs : List Char) : String :=
  match p with
  | some c => String.mk (c :: cs)
  | none => String.mk cs

/-- The body of a CSI control sequence after `ESC [`: zero or more
parameter/intermediate bytes (`0x20`–`0x3F`) followed by one final byte
(`0x40`–`0x7E`).  SGR color/styling sequences such as `ESC [ 3 1 m` have
this shape. -/
def isCsiBody : List Nat → Bool
  | [] => false
  | [b] => decide (64 ≤ b ∧ b ≤ 126)
  | b :: rest => decide (32 ≤ b ∧ b ≤ 63) && isCsiBody rest

/-- A complete terminal styling/color control sequence: `ESC [` followed
by a CSI body. -/
def isCsiSeq : List Nat → Bool
  | 27 :: 91 :: body => isCsiBody body
  | _ => false

theorem pfxOut_nil (p : Option Char) : pfxOut p [] = pfxString p := by
  cases p <;> rfl

/-- A successful render: with an unpoisoned mutex and stripped contents
that decode as UTF-8, `Display::fmt` returns the prefixed cleaned string
and leaves a fresh empty buffer (capacity 0) in the mutex. -/
theorem render_ok (s : CollectorState) (cs : List Char)
    (hp : s.poisoned = false)
    (hdec : utf8Decode (stripAnsi s.buf) = some cs) :
    render s = (.ok (pfxOut s.pfx cs), { s with buf := [], cap := 0 }) := by
  cases h : s.pfx <;> simp [render, hp, hdec, pfxOut, h]

/-- A serialized sequence of successful writes appends the concatenated
payloads at the end of the buffer, returns each payload's full length,
and touches neither the poison flag nor the prefix configuration. -/
theorem writeAll_ok (ws : List (List Nat)) (s : CollectorState)
    (hp : s.poisoned = false) :
    (writeAll s ws).fst = .ok (ws.map List.length) ∧
    (writeAll s ws).snd.buf = s.buf ++ concatAll ws ∧
    (writeAll s ws).snd.poisoned = false ∧
    (writeAll s ws).snd.pfx = s.pfx := by
  induction ws generalizing s with
  | nil => simp [writeAll, concatAll, hp]
  | cons w rest ih =>
    set s1 : CollectorState :=
      { s with buf := s.buf ++ w,
               cap := max s.cap (s.buf.length + w.length) } with hs1
    have hw : collectingWrite s w = (.ok w.length, s1) := by
      simp [collectingWrite, hp, hs1]
    obtain ⟨h1, h2, h3, h4⟩ := ih s1 (by rw [hs1]; exact hp)
    rcases hR : writeAll s1 rest with ⟨o, s2⟩
    rw [hR] at h1 h2 h3 h4
    simp at h1 h2 h3 h4
    subst h1
    simp [writeAll, hw, hR, concatAll, h2, h3, h4, hs1]

/-- In ground state the stripper keeps every byte that is not `ESC`. -/
theorem stripGo_ground_keep (m t : List Nat) (hm : ∀ b ∈ m, b ≠ 27) :
    stripGo .ground (m ++ t) = m ++ stripGo .ground t := by
  induction m with
  | nil => rfl
  | cons b rest ih =>
    have hb : b ≠ 27 := hm b (by simp)
    simp [stripGo, stripStep, hb, ih (fun x hx => hm x (by simp [hx]))]

/-- The stripper consumes a whole CSI body without emitting a byte and
returns to ground state. -/
theorem stripGo_csi (body t : List Nat) (h : isCsiBody body = true) :
    stripGo .csi (body ++ t) = stripGo .ground t := by
  induction body with
  | nil => simp [isCsiBody] at h
  | cons b rest ih =>
    cases rest with
    | nil =>
      simp [isCsiBody] at h
      simp [stripGo, stripStep, h]
    | cons b1 rest1 =>
      simp [isCsiBody] at h
      have hb : ¬(64 ≤ b ∧ b ≤ 126) := by omega
      simp [stripGo, stripStep, hb]
      exact ih h.2

/-- The stripper removes a complete control sequence entirely. -/
theorem stripGo_ground_csiSeq (e t : List Nat) (h : isCsiSeq e = true) :
    stripGo .ground (e ++ t) = stripGo .ground t := by
  match e, h with
  | 27 :: 91 :: body, h =>
    have hb : isCsiBody body = true := by simpa [isCsiSeq] using h
    show stripGo .ground (27 :: 91 :: (body ++ t)) = stripGo .ground t
    simp [stripGo, stripStep]
    exact stripGo_csi body t hb

/-- Claim C1: render is destructive and idempotent-on-emptiness — after a
successful render, with no writes and no clear in between, a second
render returns only the configured prefix character, or the empty string
when the prefix has been removed; the buffer the first render leaves in
the mutex is already empty. -/
theorem c1_render_destructive (s : CollectorState) (out1 : String)
    (s1 : CollectorState) (hp : s.poisoned = false)
    (h1 : render s = (.ok out1, s1)) :
    s1.buf = [] ∧ (render s1).fst = .ok (pfxString s1.pfx) := by
  have hs1 : s1 = { s with buf := [], cap := 0 } := by
    simp only [render, hp] at h1
    rcases hdec : utf8Decode (stripAnsi s.buf) with _ | cs <;> rw [hdec] at h1
    · simp at h1
    · rcases hpf : s.pfx with _ | p <;> rw [hpf] at h1 <;>
        simp at h1 <;> rw [hp] <;> exact h1.2.symm
  subst hs1
  refine ⟨rfl, ?_⟩
  have h2 := render_ok { s with buf := [], cap := 0 } [] hp rfl
  rw [h2]
  simp [pfxOut_nil]

theorem c1_witness :
    ({ buf := [], cap := 0, poisoned := false, pfx := some '㏒' } :
        CollectorState).buf = [] ∧
    (render { buf := [], cap := 0, poisoned := false, pfx := some '㏒' }).fst
      = .ok (pfxString (some '㏒')) :=
  c1_render_destructive
    { buf := [72], cap := 1, poisoned := false, pfx := some '㏒' }
    (String.mk ['㏒', 'H'])
    { buf := [], cap := 0, poisoned := false, pfx := some '㏒' }
    rfl (by decide)

/-- Claim C2: no bytes are lost, duplicated or reordered between write
and render — a serialized sequence of writes starting from an empty
(never yet drained) buffer leaves exactly the concatenation of the
payloads in the buffer, each write reporting its full length, and the
render that follows outputs exactly that concatenation (sanitized and
decoded) after the prefix. -/
theorem c2_no_byte_loss (ws : List (List Nat)) (s : CollectorState)
    (cs : List Char) (hp : s.poisoned = false) (hbuf : s.buf = [])
    (hdec : utf8Decode (stripAnsi (concatAll ws)) = some cs) :
    (writeAll s ws).fst = .ok (ws.map List.length) ∧
    (writeAll s ws).snd.buf = concatAll ws ∧
    (render (writeAll s ws).snd).fst = .ok (pfxOut s.pfx cs) := by
  obtain ⟨h1, h2, h3, h4⟩ := writeAll_ok ws s hp
  rw [hbuf] at h2
  simp at h2
  refine ⟨h1, h2, ?_⟩
  have hr := render_ok (writeAll s ws).snd cs h3 (by rw [h2]; exact hdec)
  rw [hr]
  simp [h4]

theorem c2_witness :
    (writeAll newCollector [[72], [105]]).fst
      = .ok ([[72], [105]].map List.length) ∧
    (writeAll newCollector [[72], [105]]).snd.buf = concatAll [[72], [105]] ∧
    (render (writeAll newCollector [[72], [105]]).snd).fst
      = .ok (pfxOut newCollector.pfx ['H', 'i']) :=
  c2_no_byte_loss [[72], [105]] newCollector ['H', 'i'] rfl rfl (by decide)

/-- Claim C3: prefix configuration acts only on future renders and is
applied exactly once — `set_prefix` and `remove_prefix` leave the
buffered content untouched (so nothing already rendered changes), and the
next render prepends the currently configured prefix character exactly
once at the start of the whole rendered string, or nothing when the
prefix has been removed. -/
theorem c3_pfx_only_future_renders (s : CollectorState) (c : Char)
    (cs : List Char) (hp : s.poisoned = false)
    (hdec : utf8Decode (stripAnsi s.buf) = some cs) :
    ( set_prefix s c).buf = s.buf ∧ ( remove_prefix s).buf = s.buf ∧
    (render ( set_prefix s c)).fst = .ok (String.mk (c :: cs)) ∧
    (render ( remove_prefix s)).fst = .ok (String.mk cs) := by
  refine ⟨rfl, rfl, ?_, ?_⟩
  · have hr := render_ok ( set_prefix s c) cs hp hdec
    rw [hr]
    simp [ set_prefix, pfxOut]
  · have hr := render_ok ( remove_prefix s) cs hp hdec
    rw [hr]
    simp [ remove_prefix, pfxOut]

theorem c3_witness :
    ( set_prefix { buf := [72], cap := 1, poisoned := false, pfx := some '㏒' } '>').buf = [72] ∧
    ( remove_prefix { buf := [72], cap := 1, poisoned := false, pfx := some '㏒' }).buf = [72] ∧
    (render ( set_prefix { buf := [72], cap := 1, poisoned := false, pfx := some '㏒' } '>')).fst = .ok (String.mk ['>', 'H']) ∧
    (render ( remove_prefix { buf := [72], cap := 1, poisoned := false, pfx := some '㏒' })).fst = .ok (String.mk ['H']) :=
  c3_pfx_only_future_renders
    { buf := [72], cap := 1, poisoned := false, pfx := some '㏒' }
    '>' ['H'] rfl (by decide)

/-- Claim C4: `clear` discards without rendering — on an unpoisoned
mutex it succeeds, empties the capture buffer, and a render immediately
after yields only the configured prefix, or the empty string when no
prefix is set. -/
theorem c4_clear_discards (s : CollectorState) (hp : s.poisoned = false) :
    (clearCollector s).fst = .ok () ∧ (clearCollector s).snd.buf = [] ∧
    (render (clearCollector s).snd).fst = .ok (pfxString s.pfx) := by
  have hc : clearCollector s = (.ok (), { s with buf := [] }) := by
    simp [clearCollector, hp]
  rw [hc]
  refine ⟨rfl, rfl, ?_⟩
  have h2 := render_ok { s with buf := [] } [] hp rfl
  simp [h2, pfxOut_nil]

theorem c4_witness :
    (clearCollector { buf := [72, 105], cap := 2, poisoned := false, pfx := some '㏒' }).fst = .ok () ∧
    (clearCollector { buf := [72, 105], cap := 2, poisoned := false, pfx := some '㏒' }).snd.buf = [] ∧
    (render (clearCollector { buf := [72, 105], cap := 2, poisoned := false, pfx := some '㏒' }).snd).fst = .ok (pfxString (some '㏒')) :=
  c4_clear_discards
    { buf := [72, 105], cap := 2, poisoned := false, pfx := some '㏒' } rfl

/-- Claim C5: invalid-UTF-8 captured content is a fatal render error —
when the stripped buffer bytes are not valid UTF-8, the render panics
(`.expect("log contains invalid utf8")`): no string, lossy-decoded or
otherwise, is produced. -/
theorem c5_invalid_utf8_fatal (s : CollectorState) (hp : s.poisoned = false)
    (hbad : utf8Decode (stripAnsi s.buf) = none) :
    (render s).fst = .panicked := by
  simp [render, hp, hbad]

theorem c5_witness :
    (render { buf := [255], cap := 1, poisoned := false, pfx := some '㏒' }).fst = Outcome.panicked :=
  c5_invalid_utf8_fatal
    { buf := [255], cap := 1, poisoned := false, pfx := some '㏒' }
    rfl (by decide)

/-- Claim C6: writer lock failure is a propagated I/O error, not silent
loss — on a poisoned mutex both `CollectingWriter::write` and
`CollectingWriter::flush` return an `io::Error` and leave the shared
state (in particular the buffer contents) unchanged. -/
theorem c6_write_poisoned_io_error (s : CollectorState) (b : List Nat)
    (hpo : s.poisoned = true) :
    collectingWrite s b = (.ioError, s) ∧ collectingFlush s = (.ioError, s) := by
  simp [collectingWrite, collectingFlush, hpo]

theorem c6_witness :
    collectingWrite { buf := [1, 2], cap := 2, poisoned := true, pfx := some '㏒' } [9]
      = (.ioError, { buf := [1, 2], cap := 2, poisoned := true, pfx := some '㏒' }) ∧
    collectingFlush { buf := [1, 2], cap := 2, poisoned := true, pfx := some '㏒' }
      = (.ioError, { buf := [1, 2], cap := 2, poisoned := true, pfx := some '㏒' }) :=
  c6_write_poisoned_io_error
    { buf := [1, 2], cap := 2, poisoned := true, pfx := some '㏒' } [9] rfl

/-- Claim C7, counterexample: the claim says every operation that takes
the capture buffer's lock — the writer's `write` included — fails
fatally (panic/abort-equivalent) on a poisoned mutex and never returns a
recoverable result.  But `CollectingWriter::write` on a poisoned mutex
returns `Err(io::Error::from(io::ErrorKind::Other))`, a recoverable
return value, not a panic. -/
theorem c7_counterexample :
    (collectingWrite { buf := [], cap := 0, poisoned := true, pfx := some '㏒' } [0]).fst = Outcome.ioError ∧
    (Outcome.ioError : Outcome Nat) ≠ Outcome.panicked := by
  decide

/-- Claim C7, amended: a poisoned mutex makes render, `clear` and
teardown fail fatally (panic via `.expect`, no recoverable result), while
the writer adapter's `write` and `flush` instead return a recoverable
I/O error. -/
theorem c7_poison_fatal_amended (s : CollectorState) (b : List Nat)
    (hpo : s.poisoned = true) :
    (render s).fst = .panicked ∧ (clearCollector s).fst = .panicked ∧
    (dropCollector s).fst = .panicked ∧
    (collectingWrite s b).fst = .ioError ∧
    (collectingFlush s).fst = .ioError := by
  simp [render, clearCollector, dropCollector, collectingWrite,
    collectingFlush, hpo]

theorem c7_witness :
    (render { buf := [], cap := 0, poisoned := true, pfx := some '㏒' }).fst = .panicked ∧
    (clearCollector { buf := [], cap := 0, poisoned := true, pfx := some '㏒' }).fst = .panicked ∧
    (dropCollector { buf := [], cap := 0, poisoned := true, pfx := some '㏒' }).fst = .panicked ∧
    (collectingWrite { buf := [], cap := 0, poisoned := true, pfx := some '㏒' } [7]).fst = .ioError ∧
    (collectingFlush { buf := [], cap := 0, poisoned := true, pfx := some '㏒' }).fst = .ioError :=
  c7_poison_fatal_amended
    { buf := [], cap := 0, poisoned := true, pfx := some '㏒' } [7] rfl

/-- Claim C8: control-sequence stripping preserves the message — for a
buffer holding a message surrounded by terminal styling/color control
sequences, stripping removes the escape bytes entirely and keeps the
message intact, and the render built on it outputs the decoded message
after the prefix (stripping happens before UTF-8 validation and before
the prefix is prepended). -/
theorem c8_strip_preserves_message (e1 e2 m : List Nat)
    (s : CollectorState) (cs : List Char)
    (he1 : isCsiSeq e1 = true) (he2 : isCsiSeq e2 = true)
    (hm : ∀ b ∈ m, b ≠ 27)
    (hbuf : s.buf = e1 ++ m ++ e2) (hp : s.poisoned = false)
    (hdec : utf8Decode m = some cs) :
    stripAnsi s.buf = m ∧
    (render s).fst = .ok (pfxOut s.pfx cs) := by
  have hstrip : stripAnsi s.buf = m := by
    rw [hbuf]
    unfold stripAnsi
    rw [List.append_assoc, stripGo_ground_csiSeq e1 _ he1,
      stripGo_ground_keep m _ hm]
    have he2nil : stripGo .ground e2 = [] := by
      have h := stripGo_ground_csiSeq e2 [] he2
      simpa using h
    simp [he2nil]
  refine ⟨hstrip, ?_⟩
  have hr := render_ok s cs hp (by rw [hstrip]; exact hdec)
  rw [hr]

theorem c8_witness :
    stripAnsi ({ buf := [27, 91, 51, 49, 109] ++ [72, 105] ++ [27, 91, 48, 109], cap := 11, poisoned := false, pfx := some '㏒' } : CollectorState).buf = [72, 105] ∧
    (render { buf := [27, 91, 51, 49, 109] ++ [72, 105] ++ [27, 91, 48, 109], cap := 11, poisoned := false, pfx := some '㏒' }).fst
      = .ok (pfxOut (some '㏒') ['H', 'i']) :=
  c8_strip_preserves_message [27, 91, 51, 49, 109] [27, 91, 48, 109]
    [72, 105]
    { buf := [27, 91, 51, 49, 109] ++ [72, 105] ++ [27, 91, 48, 109], cap := 11, poisoned := false, pfx := some '㏒' }
    ['H', 'i'] (by decide) (by decide) (by decide) rfl rfl (by decide)

/-- Claim C9: teardown bounds retained memory — whatever was ever
written, `Drop` empties the capture buffer and `shrink_to(0)` releases
its storage, so the retained allocation after teardown is an empty
buffer of capacity 0. -/
theorem c9_teardown_bounds_memory (s : CollectorState)
    (hp : s.poisoned = false) :
    (dropCollector s).fst = .ok () ∧ (dropCollector s).snd.buf = [] ∧
    (dropCollector s).snd.cap = 0 := by
  simp [dropCollector, hp]

theorem c9_witness :
    (dropCollector { buf := [65, 66, 67], cap := 1000000, poisoned := false, pfx := some '㏒' }).fst = .ok () ∧
    (dropCollector { buf := [65, 66, 67], cap := 1000000, poisoned := false, pfx := some '㏒' }).snd.buf = [] ∧
    (dropCollector { buf := [65, 66, 67], cap := 1000000, poisoned := false, pfx := some '㏒' }).snd.cap = 0 :=
  c9_teardown_bounds_memory
    { buf := [65, 66, 67], cap := 1000000, poisoned := false, pfx := some '㏒' } rfl

/-- Claim C10: the writer never performs a partial write — on an
unpoisoned mutex, `CollectingWriter::write` succeeds, returns exactly
the full length of its payload, and the buffer afterwards is its
previous contents followed by the payload. -/
theorem c10_write_never_partial (s : CollectorState) (b : List Nat)
    (hp : s.poisoned = false) :
    (collectingWrite s b).fst = .ok b.length ∧
    (collectingWrite s b).snd.buf = s.buf ++ b := by
  simp [collectingWrite, hp]

theorem c10_witness :
    (collectingWrite { buf := [1, 2], cap := 2, poisoned := false, pfx := some '㏒' } [3, 4, 5]).fst = .ok ([3, 4, 5] : List Nat).length ∧
    (collectingWrite { buf := [1, 2], cap := 2, poisoned := false, pfx := some '㏒' } [3, 4, 5]).snd.buf = [1, 2] ++ [3, 4, 5] :=
  c10_write_never_partial
    { buf := [1, 2], cap := 2, poisoned := false, pfx := some '㏒' }
    [3, 4, 5] rfl
